import Mathlib

/-!
Verification development for an onion-link scraping system consisting of a
comprehensive pastebin scraper (`pastebin_comprehensive_scraper.py`) and a
proxy-rotation extension (`proxy_extension.py`).

The Python source is shallowly embedded below: dictionaries become
association lists, Python sets become duplicate-free lists manipulated
through insert/filter, wall-clock times and floating-point scores become
rationals, and the stateful methods become pure functions that take and
return explicit state.
-/

namespace OnionScraper

/-! ## Proxy pool (`ProxyManager` from `proxy_extension.py`)

`proxy_stats[proxy] = {"success": ..., "failures": ..., "last_used": ...}`
becomes the structure `ProxyStats`; the `proxy_stats` dict becomes an
association list, and the `failed_proxies` set a duplicate-free list. -/

structure ProxyStats where
  success : Nat
  failures : Nat
  last_used : ℚ
deriving DecidableEq, Repr

structure ProxyManager where
  proxies : List String
  failed_proxies : List String
  proxy_stats : List (String × ProxyStats)
deriving DecidableEq, Repr

/-- Dictionary lookup `self.proxy_stats.get(proxy)` on the association list. -/
def lookupStat : List (String × ProxyStats) → String → Option ProxyStats
  | [], _ => none
  | (k, v) :: rest, key => if k = key then some v else lookupStat rest key

/-- Dictionary update `self.proxy_stats[proxy] = s` for a key already present. -/
def updateStat : List (String × ProxyStats) → String → ProxyStats → List (String × ProxyStats)
  | [], _, _ => []
  | (k, v) :: rest, key, s =>
    if k = key then (k, s) :: rest else (k, v) :: updateStat rest key s

/-- `ProxyManager.add_proxies`: append unknown addresses with fresh zero stats
(`{"success": 0, "failures": 0, "last_used": 0}`). -/
def add_proxies (pm : ProxyManager) (proxy_list : List String) : ProxyManager :=
  proxy_list.foldl
    (fun acc proxy =>
      if proxy ∈ acc.proxies then acc
      else
        { acc with
          proxies := acc.proxies ++ [proxy]
          proxy_stats := acc.proxy_stats ++ [(proxy, ⟨0, 0, 0⟩)] })
    pm

/-- The inner `proxy_score` closure of `ProxyManager.get_best_proxy`:
a proxy with no recorded requests scores `1.0`; otherwise
`success_rate + time_penalty * 0.1` where
`time_penalty = (time.time() - last_used) / 3600`. -/
def proxy_score (stats : ProxyStats) (now : ℚ) : ℚ :=
  let total_requests := stats.success + stats.failures
  if total_requests = 0 then 1
  else
    (stats.success : ℚ) / (total_requests : ℚ)
      + ((now - stats.last_used) / 3600) * (1 / 10)

/-- Score of a proxy drawn from the stats table; every proxy in the pool has
an entry in `proxy_stats` (the Python code indexes the dict directly). -/
def scoreOf (pm : ProxyManager) (now : ℚ) (proxy : String) : ℚ :=
  match lookupStat pm.proxy_stats proxy with
  | some s => proxy_score s now
  | none => 0

/-- Head of the list after Python's stable `sort(key=proxy_score, reverse=True)`:
the first element attaining the maximal score. -/
def selectBest (score : String → ℚ) : List String → Option String
  | [] => none
  | p :: ps => some (ps.foldl (fun best q => if score q > score best then q else best) p)

/-- `ProxyManager.get_best_proxy`: `None` on an empty pool; otherwise filter out
quarantined proxies, resetting `failed_proxies` to the empty set when the whole
pool is quarantined, and return the proxy maximizing `proxy_score`.
The reset mutates the manager, so the embedding returns the new state. -/
def get_best_proxy (pm : ProxyManager) (now : ℚ) : Option String × ProxyManager :=
  if pm.proxies = [] then (none, pm)
  else if pm.proxies.filter (fun p => !(pm.failed_proxies.contains p)) = [] then
    (selectBest (scoreOf { pm with failed_proxies := [] } now) pm.proxies,
      { pm with failed_proxies := [] })
  else
    (selectBest (scoreOf pm now)
      (pm.proxies.filter (fun p => !(pm.failed_proxies.contains p))), pm)

/-- `ProxyManager.mark_success`: for a registered proxy, bump the success
counter, stamp `last_used`, and discard the proxy from `failed_proxies`;
unknown proxies are ignored. -/
def mark_success (pm : ProxyManager) (proxy : String) (now : ℚ) : ProxyManager :=
  match lookupStat pm.proxy_stats proxy with
  | none => pm
  | some s =>
    { pm with
      proxy_stats :=
        updateStat pm.proxy_stats proxy { s with success := s.success + 1, last_used := now }
      failed_proxies := pm.failed_proxies.filter (fun q => !(q == proxy)) }

/-- `ProxyManager.mark_failure`: for a registered proxy, bump the failure
counter, then quarantine the proxy when `total > 10` and
`failures / total > 0.7`; unknown proxies are ignored. -/
def mark_failure (pm : ProxyManager) (proxy : String) : ProxyManager :=
  match lookupStat pm.proxy_stats proxy with
  | none => pm
  | some s =>
    let s' : ProxyStats := { s with failures := s.failures + 1 }
    let total := s'.success + s'.failures
    let pm' := { pm with proxy_stats := updateStat pm.proxy_stats proxy s' }
    if total > 10 ∧ (s'.failures : ℚ) / (total : ℚ) > 7 / 10 then
      { pm' with
        failed_proxies :=
          if proxy ∈ pm'.failed_proxies then pm'.failed_proxies
          else proxy :: pm'.failed_proxies }
    else pm'

/-! ## Resilient fetcher (`ProxyRotatingRequests.request` from `proxy_extension.py`)

One attempt of the retry loop either produces an HTTP status code or raises a
transport-level exception (`Timeout`, `ConnectionError`, or any other
exception); the loop body is embedded as `attemptStep` and the `while` loop as
the fuel recursion `requestAux` (fuel = `max_retries - retries`). -/

inductive AttemptResult where
  | httpStatus (code : Nat)
  | transportError
deriving DecidableEq, Repr

/-- Body of the retry loop, after a proxy was chosen: classify the outcome of
one attempt. `(some code, pm)` means the response is returned immediately
(loop exits); `(none, pm)` means the loop falls through to the retry logic.
Branch order follows the source: `200`, then the proxy-attributable statuses
`(403, 429, 503, 502, 504)`, then `404`, then the catch-all `else`; every
exception handler marks a failure and falls through. -/
def attemptStep (pm : ProxyManager) (proxy : String) (now : ℚ) :
    AttemptResult → Option Nat × ProxyManager
  | .httpStatus code =>
    if code = 200 then (some code, mark_success pm proxy now)
    else if code = 403 ∨ code = 429 ∨ code = 503 ∨ code = 502 ∨ code = 504 then
      (none, mark_failure pm proxy)
    else if code = 404 then (some code, mark_success pm proxy now)
    else (none, mark_failure pm proxy)
  | .transportError => (none, mark_failure pm proxy)

/-- Observable outcome of `ProxyRotatingRequests.request`: the returned
`(response, proxy)` pair, the number of attempts actually issued, and the list
of back-off sleeps performed between attempts. -/
structure FetchOutcome where
  response : Option Nat
  proxy_used : Option String
  attempts : Nat
  delays : List ℚ
  final : ProxyManager
deriving Repr

/-- The `while retries < self.max_retries` loop of
`ProxyRotatingRequests.request`. `oracle k` is the outcome of the attempt made
when `retries = k`; `fuel = max_retries - retries` bounds the recursion. After
a failed attempt the code sleeps `min(retry_delay * 2 ** (retries - 1), 30)`
seconds when further retries remain. -/
def requestAux (oracle : Nat → AttemptResult) (base : ℚ) (max_retries : Nat) (now : ℚ) :
    Nat → Nat → ProxyManager → FetchOutcome
  | _, 0, pm => ⟨none, none, 0, [], pm⟩
  | retries, fuel + 1, pm =>
    match get_best_proxy pm now with
    | (none, pm') => ⟨none, none, 0, [], pm'⟩
    | (some proxy, pm') =>
      match attemptStep pm' proxy now (oracle retries) with
      | (some code, pm2) => ⟨some code, some proxy, 1, [], pm2⟩
      | (none, pm2) =>
        let retries' := retries + 1
        let rest := requestAux oracle base max_retries now retries' fuel pm2
        if retries' < max_retries then
          let sleep_time := min (base * 2 ^ (retries' - 1)) 30
          ⟨rest.response, rest.proxy_used, rest.attempts + 1, sleep_time :: rest.delays,
            rest.final⟩
        else
          ⟨rest.response, rest.proxy_used, rest.attempts + 1, rest.delays, rest.final⟩

/-- `ProxyRotatingRequests.request` starts with `retries = 0`; the constructor
sets `max_retries = 5` and `retry_delay = 2` (passed here as arguments). -/
def request (oracle : Nat → AttemptResult) (base : ℚ) (max_retries : Nat) (now : ℚ)
    (pm : ProxyManager) : FetchOutcome :=
  requestAux oracle base max_retries now 0 max_retries pm

/-! ## Record store and scraper (`ComprehensivePastebinScraper` from
`pastebin_comprehensive_scraper.py`)

The entry dicts produced by `scrape_single_paste` and stored in
`self.db["onion_links"]` become the structure `Entry`; the processed-ID set
plus its append-only file become `ScrapeState`. -/

structure LinkEntry where
  onionLink : String
deriving DecidableEq, Repr

structure Entry where
  crawledTimeStamp : String
  pasteDateTimestamp : String
  sourcePasteUrl : String
  sourcePasteTitle : String
  onionLinks : List LinkEntry
  pasteId : String
deriving DecidableEq, Repr

/-- Mutable scraper state touched by `scrape_single_paste`:
`self.processed_ids` (a set), the on-disk `.processed` ledger file (one id per
line, append-only), and the `found` / `errors` progress counters. -/
structure ScrapeState where
  processed_ids : List String
  processed_file : List String
  found : Nat
  errors : Nat
deriving DecidableEq, Repr

/-- `ComprehensivePastebinScraper._save_processed_id`: append the id as a line
to the ledger file, then add it to the in-memory set. -/
def save_processed_id (st : ScrapeState) (paste_id : String) : ScrapeState :=
  { st with
    processed_file := st.processed_file ++ [paste_id]
    processed_ids := st.processed_ids.insert paste_id }

/-- Python's `str.startswith`, embedded on the character data so that it
evaluates by kernel reduction. -/
def startswith (link pre : String) : Bool :=
  pre.data.isPrefixOf link.data

/-- `ComprehensivePastebinScraper.extract_onion_links`: the regex matcher is an
external pure function `matcher`; each match lacking a scheme is prefixed with
`http://`, and `list(set(links))` removes duplicate values (embedded as
`List.dedup`, a deterministic choice of the set's enumeration order). -/
def extract_onion_links (matcher : String → List String) (content : String) : List String :=
  (((matcher content).map fun link =>
      if startswith link ("http://") || startswith link ("https://") then link
      else "http://" ++ link)).dedup

/-- Outcome of one `requests.get` call: an HTTP response or a raised
exception. -/
inductive HttpResult where
  | err
  | resp (code : Nat) (body : String)
deriving DecidableEq, Repr

/-- `ComprehensivePastebinScraper.scrape_single_paste`.
Returns `(entry or None, new state, number of requests issued)`.

  * an id already in `processed_ids` returns `None` before any request;
  * the raw fetch raising lands in the outer `except`: error counter bumped;
  * `404` → save the id, return `None`; `403` → sleep and return `None`
    without saving; any other non-`200` → return `None` without saving;
  * no extracted links → save the id, return `None`;
  * otherwise a metadata fetch is issued; `parseMeta` stands for the external
    title/date parsing of a `200` metadata body (its internal fallbacks
    included), with the placeholders `("Paste <id>", now)` used otherwise;
    a raised metadata fetch lands in the outer `except`;
  * on success the `found` counter grows by the number of links, the id is
    saved, and the entry is returned. -/
def scrape_single_paste (matcher : String → List String)
    (fetchRaw fetchMeta : String → HttpResult) (parseMeta : String → String × String)
    (crawled nowIso : String) (st : ScrapeState) (paste_id : String) :
    Option Entry × ScrapeState × Nat :=
  if paste_id ∈ st.processed_ids then (none, st, 0)
  else
    match fetchRaw paste_id with
    | .err => (none, { st with errors := st.errors + 1 }, 1)
    | .resp code body =>
      if code = 404 then (none, save_processed_id st paste_id, 1)
      else if code = 403 then (none, st, 1)
      else if code ≠ 200 then (none, st, 1)
      else
        let onion_links := extract_onion_links matcher body
        if onion_links = [] then (none, save_processed_id st paste_id, 1)
        else
          match fetchMeta paste_id with
          | .err => (none, { st with errors := st.errors + 1 }, 2)
          | .resp mcode mbody =>
            let md := if mcode = 200 then parseMeta mbody else ("Paste " ++ paste_id, nowIso)
            let entry : Entry :=
              { crawledTimeStamp := crawled
                pasteDateTimestamp := md.2
                sourcePasteUrl := "https://pastebin.com/" ++ paste_id
                sourcePasteTitle := md.1
                onionLinks := onion_links.map (fun l => ⟨l⟩)
                pasteId := paste_id }
            (some entry,
              save_processed_id { st with found := st.found + onion_links.length } paste_id,
              2)

/-- Link values stored in an entry, in order. -/
def linkValues (e : Entry) : List String :=
  e.onionLinks.map (fun l => l.onionLink)

/-- `ComprehensivePastebinScraper.add_entry` on `self.db["onion_links"]`:
walk the list; at the first entry with the same `pasteId`, extend its
`onionLinks` with exactly the incoming links whose `onionLink` value is not
already present (discovery order preserved) and stop; if no entry matcher,
append the incoming entry at the end. (The guard `if not entry: return`
filters the empty dict, which no `Entry` denotes; callers only pass
`scrape_single_paste` results.) -/
def add_entry : List Entry → Entry → List Entry
  | [], entry => [entry]
  | existing :: rest, entry =>
    if existing.pasteId = entry.pasteId then
      { existing with
        onionLinks :=
          existing.onionLinks ++
            entry.onionLinks.filter
              (fun l => !((linkValues existing).contains l.onionLink)) } :: rest
    else existing :: add_entry rest entry

/-! ## Store flush (`ComprehensivePastebinScraper._save_db`)

`_save_db` performs `open(self.db_path, 'w')` followed by `json.dump(self.db, f)`:
a truncating open of the backing file itself, then the write. The file-system
effect of a (possibly interrupted) flush is modelled by a trace of operations
applied to a path-to-contents map. -/

inductive FileOp where
  | openTrunc (path : String)
  | writeAll (path : String) (data : String)
  | rename (src : String) (dst : String)
deriving DecidableEq, Repr

/-- The trace of file operations performed by
`ComprehensivePastebinScraper._save_db` when serializing the database to
`serialized`: truncate `db_path`, then write the serialized state into it. -/
def save_db (db_path : String) (serialized : String) : List FileOp :=
  [FileOp.openTrunc db_path, FileOp.writeAll db_path serialized]

/-- Effect of one file operation on the file system (path ↦ contents). -/
def applyOp (fs : String → Option String) : FileOp → String → Option String
  | FileOp.openTrunc p => fun q => if q = p then some "" else fs q
  | FileOp.writeAll p d => fun q => if q = p then some (((fs p).getD "") ++ d) else fs q
  | FileOp.rename src dst => fun q =>
      if q = dst then fs src else if q = src then none else fs q

/-- Run a trace of file operations; a crash mid-flush corresponds to running
only a prefix of the trace. -/
def runOps (fs : String → Option String) : List FileOp → String → Option String
  | [] => fs
  | op :: rest => runOps (applyOp fs op) rest

/-- Modelled from the spec: the write-to-temp-then-rename discipline that
`flush()` is claimed to follow — all writing happens on a distinct temporary
path which is renamed onto the backing file, and the backing file itself is
never opened for writing. -/
def writeToTempThenRename (db_path : String) (ops : List FileOp) : Prop :=
  (∃ tmp, tmp ≠ db_path ∧ FileOp.rename tmp db_path ∈ ops) ∧
    FileOp.openTrunc db_path ∉ ops ∧ ∀ d, FileOp.writeAll db_path d ∉ ops

/-! ## Helper lemmas -/

theorem selectBest_isSome (score : String → ℚ) (l : List String) (h : l ≠ []) :
    (selectBest score l).isSome := by
  cases l with
  | nil => exact absurd rfl h
  | cons p ps => simp [selectBest]

theorem get_best_proxy_fst_isSome (pm : ProxyManager) (now : ℚ) (h : pm.proxies ≠ []) :
    ((get_best_proxy pm now).1).isSome := by
  unfold get_best_proxy
  rw [if_neg h]
  by_cases hav : pm.proxies.filter (fun p => !(pm.failed_proxies.contains p)) = []
  · simp only [hav, if_pos]
    exact selectBest_isSome _ _ h
  · simp only [if_neg hav]
    exact selectBest_isSome _ _ hav

theorem get_best_proxy_snd_proxies (pm : ProxyManager) (now : ℚ) :
    ((get_best_proxy pm now).2).proxies = pm.proxies := by
  unfold get_best_proxy
  split_ifs <;> rfl

theorem get_best_proxy_snd_stats (pm : ProxyManager) (now : ℚ) :
    ((get_best_proxy pm now).2).proxy_stats = pm.proxy_stats := by
  unfold get_best_proxy
  split_ifs <;> rfl

theorem mark_failure_proxies (pm : ProxyManager) (proxy : String) :
    (mark_failure pm proxy).proxies = pm.proxies := by
  unfold mark_failure
  cases lookupStat pm.proxy_stats proxy with
  | none => rfl
  | some s =>
    simp only []
    split_ifs <;> rfl

theorem mark_success_proxies (pm : ProxyManager) (proxy : String) (now : ℚ) :
    (mark_success pm proxy now).proxies = pm.proxies := by
  unfold mark_success
  cases lookupStat pm.proxy_stats proxy with
  | none => rfl
  | some s => rfl

theorem attemptStep_snd_proxies (pm : ProxyManager) (proxy : String) (now : ℚ)
    (r : AttemptResult) : ((attemptStep pm proxy now r).2).proxies = pm.proxies := by
  cases r with
  | httpStatus code =>
    simp only [attemptStep]
    split_ifs <;>
      first
        | exact mark_success_proxies pm proxy now
        | exact mark_failure_proxies pm proxy
  | transportError => exact mark_failure_proxies pm proxy

/-! ## Claims about the proxy pool -/

/-- C10: reporting a success or a failure for an address that is not
registered in the pool (no `proxy_stats` entry) leaves the whole pool state
unchanged; both operations are total, so no error is raised. -/
theorem C10_unregistered_report_noop (pm : ProxyManager) (addr : String) (now : ℚ)
    (h : lookupStat pm.proxy_stats addr = none) :
    mark_success pm addr now = pm ∧ mark_failure pm addr = pm := by
  constructor
  · unfold mark_success
    rw [h]
  · unfold mark_failure
    rw [h]

theorem C10_unregistered_report_noop_witness :
    mark_success ⟨["p"], [], [("p", ⟨1, 2, 0⟩)]⟩ "q" 5 =
        (⟨["p"], [], [("p", ⟨1, 2, 0⟩)]⟩ : ProxyManager) ∧
      mark_failure ⟨["p"], [], [("p", ⟨1, 2, 0⟩)]⟩ "q" =
        (⟨["p"], [], [("p", ⟨1, 2, 0⟩)]⟩ : ProxyManager) :=
  C10_unregistered_report_noop ⟨["p"], [], [("p", ⟨1, 2, 0⟩)]⟩ "q" 5 (by
    simp [lookupStat])

/-- C8 fails as stated: the idle-time bonus `time_penalty * 0.1` is unbounded,
so ten hours after its last use a proxy with 8 successes and 2 failures scores
`0.8 + 1.0 = 1.8`, strictly above the fresh proxy's fixed score `1.0`. -/
theorem C8_counterexample :
    proxy_score ⟨0, 0, 0⟩ 36000 < proxy_score ⟨8, 2, 0⟩ 36000 := by
  norm_num [proxy_score]

/-- C8 amended: the fresh proxy's score (`1.0`) is at least the experienced
8-success/2-failure proxy's score, provided at most two hours have elapsed
since the experienced proxy's last use (beyond that, the idle-time bonus
pushes the experienced score above `1.0`). -/
theorem C8_fresh_not_penalized (lu lu' now : ℚ) (h : now - lu ≤ 7200) :
    proxy_score ⟨8, 2, lu⟩ now ≤ proxy_score ⟨0, 0, lu'⟩ now := by
  simp only [proxy_score]
  norm_num
  linarith

theorem C8_fresh_not_penalized_witness :
    proxy_score ⟨8, 2, 0⟩ 7200 ≤ proxy_score ⟨0, 0, 0⟩ 7200 :=
  C8_fresh_not_penalized 0 0 7200 (by norm_num)

/-- C3 fails as stated: a proxy with 2 successes and 7 failures reaches, on
the next failure report, exactly 10 total attempts with failure rate
`8/10 > 0.7` — the claimed threshold `total ≥ 10` would quarantine it, but
`mark_failure` tests `total > 10` and leaves it unquarantined. -/
theorem C3_counterexample :
    (2 + (7 + 1) ≥ 10 ∧ ((7 + 1 : ℚ)) / ((2 + (7 + 1) : ℕ) : ℚ) > 7 / 10) ∧
      "p" ∉ (mark_failure ⟨["p"], [], [("p", ⟨2, 7, 0⟩)]⟩ "p").failed_proxies := by
  refine ⟨⟨by norm_num, by norm_num⟩, ?_⟩
  norm_num [mark_failure, lookupStat, updateStat]

/-- C3 amended: a failure report on a registered proxy quarantines it exactly
when, after the update, the total recorded attempts are *strictly greater
than* 10 and the failure rate exceeds 0.7 (a proxy already quarantined stays
quarantined); in particular a report leaving the total at 10 or below, or the
failure rate at 0.7 or below, never quarantines a fresh proxy. -/
theorem C3_quarantine_rule (pm : ProxyManager) (proxy : String) (s : ProxyStats)
    (h : lookupStat pm.proxy_stats proxy = some s) :
    proxy ∈ (mark_failure pm proxy).failed_proxies ↔
      (proxy ∈ pm.failed_proxies ∨
        (s.success + (s.failures + 1) > 10 ∧
          ((s.failures + 1 : ℕ) : ℚ) / ((s.success + (s.failures + 1) : ℕ) : ℚ) > 7 / 10)) := by
  simp only [mark_failure, h]
  split_ifs with hc hmem
  · exact iff_of_true hmem (Or.inl hmem)
  · exact iff_of_true (List.mem_cons_self proxy pm.failed_proxies) (Or.inr hc)
  · constructor
    · exact Or.inl
    · rintro (hm | hcond)
      · exact hm
      · exact absurd hcond hc

theorem C3_quarantine_rule_witness :
    "p" ∈ (mark_failure ⟨["p"], [], [("p", ⟨2, 8, 0⟩)]⟩ "p").failed_proxies ↔
      ("p" ∈ ([] : List String) ∨
        (2 + (8 + 1) > 10 ∧ ((8 + 1 : ℕ) : ℚ) / ((2 + (8 + 1) : ℕ) : ℚ) > 7 / 10)) :=
  C3_quarantine_rule ⟨["p"], [], [("p", ⟨2, 8, 0⟩)]⟩ "p" ⟨2, 8, 0⟩ (by
    simp [lookupStat])

/-- C4: on a non-empty pool, `get_best_proxy` always returns some proxy —
when every proxy is quarantined the quarantine set is reset to empty before
selection — and `None` is returned only when the pool is empty. -/
theorem C4_best_proxy_total (pm : ProxyManager) (now : ℚ) (h : pm.proxies ≠ []) :
    ((get_best_proxy pm now).1).isSome ∧
      (pm.proxies.filter (fun p => !(pm.failed_proxies.contains p)) = [] →
        ((get_best_proxy pm now).2).failed_proxies = []) ∧
      ∀ qm : ProxyManager, (get_best_proxy qm now).1 = none → qm.proxies = [] := by
  refine ⟨get_best_proxy_fst_isSome pm now h, ?_, ?_⟩
  · intro hav
    unfold get_best_proxy
    rw [if_neg h, if_pos hav]
  · intro qm hnone
    by_contra hne
    have := get_best_proxy_fst_isSome qm now hne
    rw [hnone] at this
    exact Bool.noConfusion this

theorem C4_best_proxy_total_witness :
    ((get_best_proxy ⟨["p"], ["p"], [("p", ⟨0, 5, 0⟩)]⟩ 0).1).isSome ∧
      ((⟨["p"], ["p"], [("p", ⟨0, 5, 0⟩)]⟩ : ProxyManager).proxies.filter
          (fun p => !((⟨["p"], ["p"], [("p", ⟨0, 5, 0⟩)]⟩ : ProxyManager).failed_proxies.contains p)) = [] →
        ((get_best_proxy ⟨["p"], ["p"], [("p", ⟨0, 5, 0⟩)]⟩ 0).2).failed_proxies = []) ∧
      ∀ qm : ProxyManager, (get_best_proxy qm 0).1 = none → qm.proxies = [] :=
  C4_best_proxy_total ⟨["p"], ["p"], [("p", ⟨0, 5, 0⟩)]⟩ 0 (by simp)

/-! ## Claims about the resilient fetcher -/

/-- A failed attempt (the `(none, _)` outcome of `attemptStep`) makes the
loop retry: with a non-empty pool and fuel remaining, at least one further
attempt is issued. -/
theorem requestAux_attempts_pos (oracle : Nat → AttemptResult) (base : ℚ)
    (max_retries : Nat) (now : ℚ) (retries fuel : Nat) (pm : ProxyManager)
    (h : pm.proxies ≠ []) :
    1 ≤ (requestAux oracle base max_retries now retries (fuel + 1) pm).attempts := by
  obtain ⟨proxy, hproxy⟩ :=
    Option.isSome_iff_exists.mp (get_best_proxy_fst_isSome pm now h)
  simp only [requestAux]
  rcases hbp : get_best_proxy pm now with ⟨fst, pm'⟩
  rw [hbp] at hproxy
  subst hproxy
  simp only []
  rcases hstep : attemptStep pm' proxy now (oracle retries) with ⟨res, pm2⟩
  cases res with
  | some code => simp
  | none =>
    simp only []
    split_ifs <;> simp

/-- C5: classification of one fetch attempt. HTTP 200 reports success and the
response is returned immediately (one attempt, no retry); HTTP 404 likewise
reports success and returns immediately; a status in {403, 429, 502, 503, 504}
reports failure on the proxy and the loop retries; any other status or a
transport/timeout exception reports failure and the loop retries. -/
theorem C5_attempt_classification (pm : ProxyManager) (proxy : String) (now : ℚ)
    (code : Nat)
    (hother : code ≠ 200 ∧ code ≠ 404 ∧
      ¬(code = 403 ∨ code = 429 ∨ code = 503 ∨ code = 502 ∨ code = 504)) :
    attemptStep pm proxy now (.httpStatus 200) = (some 200, mark_success pm proxy now) ∧
      attemptStep pm proxy now (.httpStatus 404) = (some 404, mark_success pm proxy now) ∧
      (∀ c, c = 403 ∨ c = 429 ∨ c = 502 ∨ c = 503 ∨ c = 504 →
        attemptStep pm proxy now (.httpStatus c) = (none, mark_failure pm proxy)) ∧
      attemptStep pm proxy now (.httpStatus code) = (none, mark_failure pm proxy) ∧
      attemptStep pm proxy now .transportError = (none, mark_failure pm proxy) ∧
      (∀ oracle base max_retries retries fuel,
        oracle retries = .httpStatus 200 → pm.proxies ≠ [] →
        (requestAux oracle base max_retries now retries (fuel + 1) pm).attempts = 1 ∧
          (requestAux oracle base max_retries now retries (fuel + 1) pm).response = some 200) := by
  obtain ⟨h200, h404, hrest⟩ := hother
  refine ⟨by norm_num [attemptStep], by norm_num [attemptStep], ?_, ?_, rfl, ?_⟩
  · rintro c (rfl | rfl | rfl | rfl | rfl) <;> norm_num [attemptStep]
  · simp only [attemptStep, if_neg h200, if_neg hrest, if_neg h404]
  · intro oracle base max_retries retries fuel h200' hne
    obtain ⟨p, hp⟩ :=
      Option.isSome_iff_exists.mp (get_best_proxy_fst_isSome pm now hne)
    rcases hbp : get_best_proxy pm now with ⟨fst, pm'⟩
    rw [hbp] at hp
    subst hp
    have hstep : attemptStep pm' p now (oracle retries) =
        (some 200, mark_success pm' p now) := by
      rw [h200']
      norm_num [attemptStep]
    constructor <;>
      · simp only [requestAux, hbp, hstep]

/-- Invariant of the all-503 run of the retry loop: starting at `retries` with
`fuel = max_retries - retries` remaining, the loop issues exactly `fuel`
further attempts, returns `(None, None)`, and sleeps
`min(base * 2 ^ (retries + k), 30)` before each of the `fuel - 1` retries. -/
theorem requestAux_all_503 (base : ℚ) (max_retries : Nat) (now : ℚ) :
    ∀ fuel retries pm, pm.proxies ≠ [] → retries + fuel = max_retries →
      (requestAux (fun _ => .httpStatus 503) base max_retries now retries fuel pm).response
          = none ∧
        (requestAux (fun _ => .httpStatus 503) base max_retries now retries fuel pm).proxy_used
          = none ∧
        (requestAux (fun _ => .httpStatus 503) base max_retries now retries fuel pm).attempts
          = fuel ∧
        (requestAux (fun _ => .httpStatus 503) base max_retries now retries fuel pm).delays
          = (List.range (fuel - 1)).map (fun k => min (base * 2 ^ (retries + k)) 30) := by
  intro fuel
  induction fuel with
  | zero =>
    intro retries pm h hinv
    simp [requestAux]
  | succ f ih =>
    intro retries pm h hinv
    obtain ⟨proxy, hbp0⟩ :=
      Option.isSome_iff_exists.mp (get_best_proxy_fst_isSome pm now h)
    rcases hbp : get_best_proxy pm now with ⟨fst, pm'⟩
    rw [hbp] at hbp0
    subst hbp0
    have hpm' : pm'.proxies = pm.proxies := by
      have hp := get_best_proxy_snd_proxies pm now
      rw [hbp] at hp
      exact hp
    have hstep : attemptStep pm' proxy now (.httpStatus 503) =
        (none, mark_failure pm' proxy) := by
      norm_num [attemptStep]
    have h2 : (mark_failure pm' proxy).proxies ≠ [] := by
      rw [mark_failure_proxies, hpm']
      exact h
    have ihr := ih (retries + 1) (mark_failure pm' proxy) h2 (by omega)
    simp only [requestAux, hbp, hstep]
    cases f with
    | zero =>
      have hlt : ¬(retries + 1 < max_retries) := by omega
      simp only [if_neg hlt]
      exact ⟨ihr.1, ihr.2.1, by rw [ihr.2.2.1], by rw [ihr.2.2.2]; simp⟩
    | succ f' =>
      have hlt : retries + 1 < max_retries := by omega
      simp only [if_pos hlt]
      refine ⟨ihr.1, ihr.2.1, by rw [ihr.2.2.1], ?_⟩
      rw [ihr.2.2.2]
      simp only [Nat.succ_sub_one, List.range_succ_eq_map, List.map_cons, List.map_map,
        Nat.add_zero, Nat.add_sub_cancel]
      refine congrArg₂ _ rfl ?_
      apply List.map_congr_left
      intro k _
      have harith : retries + 1 + k = retries + (k + 1) := by omega
      rw [Function.comp_apply, harith]

/-- C6: when every attempt yields HTTP 503 and the pool is non-empty, the
fetch issues exactly `max_retries` attempts and returns `(None, None)`; the
delay slept after attempt `k` (before retry attempt `k + 1`) is exactly
`min(base * 2 ^ (k - 1), 30)`, i.e. the list of sleeps is
`[min(base * 2 ^ k, 30) | k < max_retries - 1]`, so the total wait equals the
sum of the capped exponential back-off series. -/
theorem C6_always_503_exhausts (base : ℚ) (max_retries : Nat) (now : ℚ)
    (pm : ProxyManager) (h : pm.proxies ≠ []) :
    (request (fun _ => .httpStatus 503) base max_retries now pm).response = none ∧
      (request (fun _ => .httpStatus 503) base max_retries now pm).proxy_used = none ∧
      (request (fun _ => .httpStatus 503) base max_retries now pm).attempts = max_retries ∧
      (request (fun _ => .httpStatus 503) base max_retries now pm).delays =
        (List.range (max_retries - 1)).map (fun k => min (base * 2 ^ k) 30) := by
  have hmain := requestAux_all_503 base max_retries now max_retries 0 pm h (by omega)
  simpa [request] using hmain

/-- Witness for C6 at the constructor defaults `max_retries = 5`,
`retry_delay = 2`: five attempts, result `(None, None)`, sleeps
`[2, 4, 8, 16]` (series sum 30). -/
theorem C6_always_503_exhausts_witness :
    (request (fun _ => .httpStatus 503) 2 5 0 ⟨["p"], [], [("p", ⟨0, 0, 0⟩)]⟩).response
        = none ∧
      (request (fun _ => .httpStatus 503) 2 5 0 ⟨["p"], [], [("p", ⟨0, 0, 0⟩)]⟩).proxy_used
        = none ∧
      (request (fun _ => .httpStatus 503) 2 5 0 ⟨["p"], [], [("p", ⟨0, 0, 0⟩)]⟩).attempts = 5 ∧
      (request (fun _ => .httpStatus 503) 2 5 0 ⟨["p"], [], [("p", ⟨0, 0, 0⟩)]⟩).delays
        = [2, 4, 8, 16] := by
  obtain ⟨h1, h2, h3, h4⟩ :=
    C6_always_503_exhausts 2 5 0 ⟨["p"], [], [("p", ⟨0, 0, 0⟩)]⟩ (by simp)
  refine ⟨h1, h2, h3, ?_⟩
  rw [h4]
  norm_num [List.range_succ, min_def]

/-! ## Claims about the store flush -/

/-- C7 fails as stated: `_save_db` opens the backing file itself with a
truncating write — there is no temporary file and no rename, so the
write-to-temp-then-rename discipline is violated at any concrete path and
state. -/
theorem C7_counterexample :
    ¬ writeToTempThenRename ("comprehensive_onion_links.json")
        (save_db ("comprehensive_onion_links.json") ("serialized-db")) := by
  rintro ⟨-, hopen, -⟩
  exact hopen (by simp [save_db])

/-- C7 amended: the flush writes the full in-memory state to the backing file
*in place*: the trace is exactly a truncating open of the backing file
followed by one write of the serialized state, it contains no rename, a
completed flush leaves the serialized state in the file, and a process killed
between the truncating open and the write leaves the backing file empty —
the prior contents are destroyed rather than protected by a temp-then-rename
discipline. -/
theorem C7_flush_truncates_in_place (db_path serialized : String)
    (fs : String → Option String) :
    save_db db_path serialized =
        [FileOp.openTrunc db_path, FileOp.writeAll db_path serialized] ∧
      (∀ src dst, FileOp.rename src dst ∉ save_db db_path serialized) ∧
      runOps fs (save_db db_path serialized) db_path = some serialized ∧
      runOps fs [FileOp.openTrunc db_path] db_path = some ("") := by
  refine ⟨rfl, ?_, ?_, ?_⟩
  · intro src dst
    simp [save_db]
  · simp [save_db, runOps, applyOp]
  · simp [runOps, applyOp]

/-! ## Helper lemmas about the record store -/

/-- Merging a record already stored (under unique `pasteId`s, with duplicate-free
link values as `extract_onion_links` guarantees) does not change the store. -/
theorem add_entry_self (db : List Entry) (R : Entry)
    (hnd : (db.map Entry.pasteId).Nodup) (hmem : R ∈ db) :
    add_entry db R = db := by
  induction db with
  | nil => cases hmem
  | cons hd tl ih =>
    rcases List.mem_cons.mp hmem with rfl | htl
    · simp only [add_entry, if_pos rfl]
      have hfil : R.onionLinks.filter
          (fun l => !((linkValues R).contains l.onionLink)) = [] := by
        rw [List.filter_eq_nil_iff]
        intro l hl
        simp only [Bool.not_eq_true', Bool.not_eq_false]
        exact List.elem_eq_true_of_mem
          (List.mem_map_of_mem (fun x => x.onionLink) hl)
      rw [hfil]
      simp
    · have hne : hd.pasteId ≠ R.pasteId := by
        simp only [List.map_cons, List.nodup_cons] at hnd
        intro he
        exact hnd.1 (he ▸ List.mem_map_of_mem Entry.pasteId htl)
      simp only [add_entry, if_neg hne]
      rw [ih (by simpa using hnd.of_cons) htl]

/-- Merging a record whose `pasteId` is absent appends it at the end. -/
theorem add_entry_of_absent (db : List Entry) (entry : Entry)
    (h : ∀ e ∈ db, e.pasteId ≠ entry.pasteId) :
    add_entry db entry = db ++ [entry] := by
  induction db with
  | nil => rfl
  | cons hd tl ih =>
    have hne : hd.pasteId ≠ entry.pasteId := h hd (List.mem_cons_self hd tl)
    simp only [add_entry, if_neg hne, List.cons_append]
    rw [ih (fun e he => h e (List.mem_cons_of_mem hd he))]

/-- Merging into a store whose only matching record is the final one extends
that record in place with the not-yet-present link values. -/
theorem add_entry_append_last (db : List Entry) (R1 R2 : Entry)
    (hid : R1.pasteId = R2.pasteId) (h : ∀ e ∈ db, e.pasteId ≠ R1.pasteId) :
    add_entry (db ++ [R1]) R2 =
      db ++ [{ R1 with
        onionLinks := R1.onionLinks ++
          R2.onionLinks.filter (fun l => !((linkValues R1).contains l.onionLink)) }] := by
  induction db with
  | nil =>
    simp only [List.nil_append, add_entry, if_pos hid]
  | cons hd tl ih =>
    have hne : hd.pasteId ≠ R2.pasteId := by
      rw [← hid]
      exact h hd (List.mem_cons_self hd tl)
    simp only [List.cons_append, add_entry, if_neg hne, List.append_eq]
    rw [ih (fun e he => h e (List.mem_cons_of_mem hd he))]

/-- Merging never removes or overwrites: every stored record survives with its
`pasteId` and its full link list as a preserved initial segment. -/
theorem add_entry_extends (db : List Entry) (entry e : Entry) (h : e ∈ db) :
    ∃ e', e' ∈ add_entry db entry ∧ e'.pasteId = e.pasteId ∧
      ∃ tl, e'.onionLinks = e.onionLinks ++ tl := by
  induction db with
  | nil => cases h
  | cons hd tl ih =>
    by_cases heq : hd.pasteId = entry.pasteId
    · simp only [add_entry, if_pos heq]
      rcases List.mem_cons.mp h with rfl | htl
      · exact ⟨_, List.mem_cons_self _ _, rfl, _, rfl⟩
      · exact ⟨e, List.mem_cons_of_mem _ htl, rfl, [], (List.append_nil _).symm⟩
    · simp only [add_entry, if_neg heq]
      rcases List.mem_cons.mp h with rfl | htl
      · exact ⟨e, List.mem_cons_self _ _, rfl, [], (List.append_nil _).symm⟩
      · obtain ⟨e', he', hid, tl', htl'⟩ := ih htl
        exact ⟨e', List.mem_cons_of_mem _ he', hid, tl', htl'⟩

/-- Merging introduces no foreign `pasteId`: every record of the merged store
carries the incoming id or an id already present. -/
theorem add_entry_ids (db : List Entry) (entry x : Entry) (h : x ∈ add_entry db entry) :
    x.pasteId = entry.pasteId ∨ ∃ y ∈ db, y.pasteId = x.pasteId := by
  induction db with
  | nil =>
    have hx : x = entry := by simpa [add_entry] using h
    subst hx
    exact Or.inl rfl
  | cons hd tl ih =>
    by_cases heq : hd.pasteId = entry.pasteId
    · simp only [add_entry, if_pos heq] at h
      rcases List.mem_cons.mp h with rfl | htl
      · exact Or.inr ⟨hd, List.mem_cons_self hd tl, heq.symm ▸ rfl⟩
      · exact Or.inr ⟨x, List.mem_cons_of_mem hd htl, rfl⟩
    · simp only [add_entry, if_neg heq] at h
      rcases List.mem_cons.mp h with rfl | htl
      · exact Or.inr ⟨x, List.mem_cons_self x tl, rfl⟩
      · rcases ih htl with hi | ⟨y, hy, hyid⟩
        · exact Or.inl hi
        · exact Or.inr ⟨y, List.mem_cons_of_mem hd hy, hyid⟩

/-- Merging a record with at least one link preserves the invariant that every
stored record has at least one link. -/
theorem add_entry_nonempty_links (db : List Entry) (entry : Entry)
    (hentry : entry.onionLinks ≠ []) (hdb : ∀ x ∈ db, x.onionLinks ≠ []) :
    ∀ x ∈ add_entry db entry, x.onionLinks ≠ [] := by
  induction db with
  | nil =>
    intro x hx
    have hxe : x = entry := by simpa [add_entry] using hx
    subst hxe
    exact hentry
  | cons hd tl ih =>
    intro x hx
    by_cases heq : hd.pasteId = entry.pasteId
    · simp only [add_entry, if_pos heq] at hx
      rcases List.mem_cons.mp hx with rfl | htl
      · simp only []
        intro hnil
        exact hdb hd (List.mem_cons_self hd tl) (List.append_eq_nil.mp hnil).1
      · exact hdb x (List.mem_cons_of_mem hd htl)
    · simp only [add_entry, if_neg heq] at hx
      rcases List.mem_cons.mp hx with rfl | htl
      · exact hdb x (List.mem_cons_self x tl)
      · exact ih (fun y hy => hdb y (List.mem_cons_of_mem hd hy)) x htl

/-- One scrape only grows the processed-ID set and only appends to the ledger
file. -/
theorem scrape_state_growth (matcher : String → List String)
    (fetchRaw fetchMeta : String → HttpResult) (parseMeta : String → String × String)
    (crawled nowIso : String) (st : ScrapeState) (paste_id : String) :
    st.processed_ids ⊆
        ((scrape_single_paste matcher fetchRaw fetchMeta parseMeta crawled nowIso
          st paste_id).2.1).processed_ids ∧
      ∃ tl, ((scrape_single_paste matcher fetchRaw fetchMeta parseMeta crawled nowIso
          st paste_id).2.1).processed_file = st.processed_file ++ tl := by
  unfold scrape_single_paste
  by_cases hp : paste_id ∈ st.processed_ids
  · rw [if_pos hp]
    exact ⟨fun x hx => hx, [], by simp⟩
  rw [if_neg hp]
  rcases hfr : fetchRaw paste_id with _ | ⟨code, body⟩
  · exact ⟨fun x hx => hx, [], by simp⟩
  simp only []
  split_ifs with h404 h403 h200 hl
  · exact ⟨List.subset_insert paste_id st.processed_ids, [paste_id], rfl⟩
  · exact ⟨fun x hx => hx, [], by simp⟩
  · exact ⟨fun x hx => hx, [], by simp⟩
  · exact ⟨List.subset_insert paste_id st.processed_ids, [paste_id], rfl⟩
  · rcases hfm : fetchMeta paste_id with _ | ⟨mcode, mbody⟩
    · exact ⟨fun x hx => hx, [], by simp⟩
    · exact ⟨List.subset_insert paste_id st.processed_ids, [paste_id], rfl⟩

/-- A scrape never returns a record with an empty link list: when
`extract_onion_links` finds nothing, the id is marked processed and no entry
is produced. -/
theorem scrape_some_links_nonempty (matcher : String → List String)
    (fetchRaw fetchMeta : String → HttpResult) (parseMeta : String → String × String)
    (crawled nowIso : String) (st : ScrapeState) (paste_id : String) (e : Entry)
    (he : (scrape_single_paste matcher fetchRaw fetchMeta parseMeta crawled nowIso
      st paste_id).1 = some e) :
    e.onionLinks ≠ [] := by
  unfold scrape_single_paste at he
  by_cases hp : paste_id ∈ st.processed_ids
  · rw [if_pos hp] at he
    exact Option.noConfusion he
  rw [if_neg hp] at he
  rcases hfr : fetchRaw paste_id with _ | ⟨code, body⟩ <;> rw [hfr] at he
  · exact Option.noConfusion he
  simp only [] at he
  split_ifs at he with h404 h403 h200 hl
  rcases hfm : fetchMeta paste_id with _ | ⟨mcode, mbody⟩ <;> rw [hfm] at he
  · exact Option.noConfusion he
  · simp only [] at he
    have hee := Option.some.inj he
    subst hee
    simp only []
    intro hnil
    exact hl (List.map_eq_nil_iff.mp hnil)

/-! ## Claims about the record store and the ledger -/

/-- C2: the processed-ID ledger only grows — a scrape never removes an id from
the in-memory set and only appends lines to the ledger file — and an
identifier already in the ledger is never dispatched again: scraping it
issues zero requests, changes nothing, and returns no record. -/
theorem C2_ledger_monotone_skip (matcher : String → List String)
    (fetchRaw fetchMeta : String → HttpResult) (parseMeta : String → String × String)
    (crawled nowIso : String) (st : ScrapeState) (paste_id : String) :
    (st.processed_ids ⊆
        ((scrape_single_paste matcher fetchRaw fetchMeta parseMeta crawled nowIso
          st paste_id).2.1).processed_ids ∧
      ∃ tl, ((scrape_single_paste matcher fetchRaw fetchMeta parseMeta crawled nowIso
          st paste_id).2.1).processed_file = st.processed_file ++ tl) ∧
      (paste_id ∈ st.processed_ids →
        scrape_single_paste matcher fetchRaw fetchMeta parseMeta crawled nowIso
          st paste_id = (none, st, 0)) := by
  refine ⟨scrape_state_growth matcher fetchRaw fetchMeta parseMeta crawled nowIso
    st paste_id, ?_⟩
  intro hp
  unfold scrape_single_paste
  rw [if_pos hp]

theorem C2_ledger_monotone_skip_witness :
    ((⟨["x"], ["x"], 0, 0⟩ : ScrapeState).processed_ids ⊆
        ((scrape_single_paste (fun _ => []) (fun _ => HttpResult.resp 404 (""))
          (fun _ => HttpResult.err) (fun _ => ("", "")) ("c") ("n")
          ⟨["x"], ["x"], 0, 0⟩ "x").2.1).processed_ids ∧
      ∃ tl, ((scrape_single_paste (fun _ => []) (fun _ => HttpResult.resp 404 (""))
          (fun _ => HttpResult.err) (fun _ => ("", "")) ("c") ("n")
          ⟨["x"], ["x"], 0, 0⟩ "x").2.1).processed_file =
        (⟨["x"], ["x"], 0, 0⟩ : ScrapeState).processed_file ++ tl) ∧
      scrape_single_paste (fun _ => []) (fun _ => HttpResult.resp 404 (""))
          (fun _ => HttpResult.err) (fun _ => ("", "")) ("c") ("n")
          ⟨["x"], ["x"], 0, 0⟩ "x" =
        (none, ⟨["x"], ["x"], 0, 0⟩, 0) := by
  obtain ⟨hgrow, hskip⟩ := C2_ledger_monotone_skip (fun _ => [])
    (fun _ => HttpResult.resp 404 ("")) (fun _ => HttpResult.err)
    (fun _ => ("", "")) ("c") ("n") ⟨["x"], ["x"], 0, 0⟩ "x"
  exact ⟨hgrow, hskip (by simp)⟩

/-- C9: store invariant. A scrape that finds zero links never creates a record
(`scrape_single_paste` yields an entry only with a non-empty link list); a
merge never removes or overwrites an existing link value (every stored record
survives with its link list as a preserved initial segment); a merge
introduces no record for an id that was neither stored nor incoming; and the
all-records-have-links invariant is preserved by merging scrape output. -/
theorem C9_store_invariant :
    (∀ (matcher : String → List String) (fetchRaw fetchMeta : String → HttpResult)
        (parseMeta : String → String × String) (crawled nowIso : String)
        (st : ScrapeState) (paste_id : String) (e : Entry),
        (scrape_single_paste matcher fetchRaw fetchMeta parseMeta crawled nowIso
          st paste_id).1 = some e → e.onionLinks ≠ []) ∧
      (∀ (db : List Entry) (entry e : Entry), e ∈ db →
        ∃ e', e' ∈ add_entry db entry ∧ e'.pasteId = e.pasteId ∧
          ∃ tl, e'.onionLinks = e.onionLinks ++ tl) ∧
      (∀ (db : List Entry) (entry x : Entry), x ∈ add_entry db entry →
        x.pasteId = entry.pasteId ∨ ∃ y ∈ db, y.pasteId = x.pasteId) ∧
      (∀ (db : List Entry) (entry : Entry), entry.onionLinks ≠ [] →
        (∀ x ∈ db, x.onionLinks ≠ []) → ∀ x ∈ add_entry db entry, x.onionLinks ≠ []) :=
  ⟨scrape_some_links_nonempty, add_entry_extends, add_entry_ids,
    add_entry_nonempty_links⟩

theorem C9_store_invariant_witness :
    ((⟨"c", "n", "https://pastebin.com/id1", "Paste id1",
        [⟨"http://a.onion"⟩], "id1"⟩ : Entry).onionLinks ≠ [] ∧
      (∃ e', e' ∈ add_entry [⟨"c", "d", "u", "t", [⟨"a"⟩], "id1"⟩]
          ⟨"c2", "d2", "u2", "t2", [⟨"b"⟩], "id1"⟩ ∧
        e'.pasteId = (⟨"c", "d", "u", "t", [⟨"a"⟩], "id1"⟩ : Entry).pasteId ∧
        ∃ tl, e'.onionLinks =
          (⟨"c", "d", "u", "t", [⟨"a"⟩], "id1"⟩ : Entry).onionLinks ++ tl)) ∧
      ∀ x ∈ add_entry [⟨"c", "d", "u", "t", [⟨"a"⟩], "id1"⟩]
          ⟨"c2", "d2", "u2", "t2", [⟨"b"⟩], "id1"⟩, x.onionLinks ≠ [] := by
  refine ⟨⟨?_, ?_⟩, ?_⟩
  · exact C9_store_invariant.1 (fun _ => ["http://a.onion"])
      (fun _ => HttpResult.resp 200 ("x")) (fun _ => HttpResult.resp 500 (""))
      (fun _ => ("t", "d")) ("c") ("n") ⟨[], [], 0, 0⟩ "id1" _ (by rfl)
  · exact C9_store_invariant.2.1 _ _ _ (List.mem_singleton.mpr rfl)
  · exact C9_store_invariant.2.2.2 _ _ (by simp) (by simp)

/-- C1: merge is idempotent and union-forming. Re-merging a stored record
(store keyed uniquely by `pasteId`, record well-formed: distinct link values,
as `extract_onion_links` produces) leaves the store unchanged, so each
distinct link value occurs exactly once; merging two records with the same
`source_id` and disjoint link sets into a store without that id yields exactly
one stored record whose link list is the concatenation of the two — only
values not already present are appended, in discovery order. -/
theorem C1_merge_idempotent_union :
    (∀ (db : List Entry) (R : Entry), (db.map Entry.pasteId).Nodup → R ∈ db →
        (linkValues R).Nodup →
        add_entry db R = db ∧ ∀ v ∈ linkValues R, (linkValues R).count v = 1) ∧
      (∀ (db : List Entry) (R1 R2 : Entry), R1.pasteId = R2.pasteId →
        (∀ v ∈ linkValues R2, v ∉ linkValues R1) →
        (∀ e ∈ db, e.pasteId ≠ R1.pasteId) →
        (add_entry (add_entry db R1) R2).filter
            (fun e => e.pasteId == R1.pasteId) =
          [{ R1 with onionLinks := R1.onionLinks ++ R2.onionLinks }]) := by
  constructor
  · intro db R hnd hmem hlnd
    exact ⟨add_entry_self db R hnd hmem,
      fun v hv => List.count_eq_one_of_mem hlnd hv⟩
  · intro db R1 R2 hid hdisj habs
    rw [add_entry_of_absent db R1 habs, add_entry_append_last db R1 R2 hid habs]
    have hfil : R2.onionLinks.filter
        (fun l => !((linkValues R1).contains l.onionLink)) = R2.onionLinks := by
      rw [List.filter_eq_self]
      intro l hl
      simp only [Bool.not_eq_true']
      cases hcon : (linkValues R1).contains l.onionLink
      · rfl
      · exact absurd (List.mem_of_elem_eq_true hcon)
          (hdisj l.onionLink (List.mem_map_of_mem (fun x => x.onionLink) hl))
    rw [hfil, List.filter_append]
    have h1 : db.filter (fun e => e.pasteId == R1.pasteId) = [] := by
      rw [List.filter_eq_nil_iff]
      intro e he
      simpa using habs e he
    rw [h1, List.nil_append]
    simp

theorem C1_merge_idempotent_union_witness :
    (add_entry [⟨"c", "d", "u", "t", [⟨"a"⟩], "id1"⟩]
          ⟨"c", "d", "u", "t", [⟨"a"⟩], "id1"⟩ =
        [⟨"c", "d", "u", "t", [⟨"a"⟩], "id1"⟩] ∧
      ∀ v ∈ linkValues ⟨"c", "d", "u", "t", [⟨"a"⟩], "id1"⟩,
        (linkValues ⟨"c", "d", "u", "t", [⟨"a"⟩], "id1"⟩).count v = 1) ∧
      (add_entry (add_entry [] ⟨"c", "d", "u", "t", [⟨"a"⟩], "id1"⟩)
          ⟨"c2", "d2", "u2", "t2", [⟨"b"⟩], "id1"⟩).filter
          (fun e => e.pasteId == (⟨"c", "d", "u", "t", [⟨"a"⟩], "id1"⟩ : Entry).pasteId) =
        [{ (⟨"c", "d", "u", "t", [⟨"a"⟩], "id1"⟩ : Entry) with
            onionLinks := [⟨"a"⟩] ++ [⟨"b"⟩] }] := by
  refine ⟨C1_merge_idempotent_union.1 _ _ (by simp) (by simp)
    (by simp [linkValues]), ?_⟩
  exact C1_merge_idempotent_union.2 [] _ _ rfl
    (by simp [linkValues]) (by simp)

theorem C5_attempt_classification_witness :
    attemptStep ⟨["p"], [], [("p", ⟨0, 0, 0⟩)]⟩ "p" 0 (.httpStatus 200) =
        (some 200, mark_success ⟨["p"], [], [("p", ⟨0, 0, 0⟩)]⟩ "p" 0) ∧
      attemptStep ⟨["p"], [], [("p", ⟨0, 0, 0⟩)]⟩ "p" 0 (.httpStatus 404) =
        (some 404, mark_success ⟨["p"], [], [("p", ⟨0, 0, 0⟩)]⟩ "p" 0) ∧
      attemptStep ⟨["p"], [], [("p", ⟨0, 0, 0⟩)]⟩ "p" 0 (.httpStatus 503) =
        (none, mark_failure ⟨["p"], [], [("p", ⟨0, 0, 0⟩)]⟩ "p") ∧
      attemptStep ⟨["p"], [], [("p", ⟨0, 0, 0⟩)]⟩ "p" 0 (.httpStatus 500) =
        (none, mark_failure ⟨["p"], [], [("p", ⟨0, 0, 0⟩)]⟩ "p") ∧
      attemptStep ⟨["p"], [], [("p", ⟨0, 0, 0⟩)]⟩ "p" 0 .transportError =
        (none, mark_failure ⟨["p"], [], [("p", ⟨0, 0, 0⟩)]⟩ "p") ∧
      (request (fun _ => .httpStatus 200) 2 5 0 ⟨["p"], [], [("p", ⟨0, 0, 0⟩)]⟩).attempts
          = 1 ∧
      (request (fun _ => .httpStatus 200) 2 5 0 ⟨["p"], [], [("p", ⟨0, 0, 0⟩)]⟩).response
          = some 200 := by
  obtain ⟨h200, h404, hlist, hoth, htr, hloop⟩ :=
    C5_attempt_classification ⟨["p"], [], [("p", ⟨0, 0, 0⟩)]⟩ "p" 0 500 (by norm_num)
  obtain ⟨hat, hre⟩ := hloop (fun _ => .httpStatus 200) 2 5 0 4 rfl (by simp)
  exact ⟨h200, h404, hlist 503 (by norm_num), hoth, htr, hat, hre⟩

end OnionScraper
